import Mathlib

set_option linter.unusedVariables false

/-!
Verification of the rolling-window reactive data engine of the
`cintel-05-cintel` Arctic climate dashboard (`dashboard/app.py`).

The Python source is shallowly embedded:

* a `Reading` (the dict built in `reactive_calc_combined`) is a record of two
  rationals and a timestamp modelled as its character list;
* the process-wide `deque(maxlen=DEQUE_SIZE)` stored in
  `reactive_value_wrapper` is a `List Reading` together with Python's
  `deque`-with-`maxlen` append semantics (`dequeAppend`);
* the `@reactive.calc()` memoization of `reactive_calc_combined` is an
  explicit cache cell in `EngineState`, invalidated by a scheduler `tick`
  (the effect of `reactive.invalidate_later` firing);
* the returned triple `(deque_snapshot, df, latest_dictionary_entry)` is a
  `Snapshot`: the deque component is the live object itself (reading it
  consults the current store — `readBufferView`), while `pd.DataFrame(...)`
  copies the rows at construction time (`df : List Reading` held by value,
  read by `readTableView`);
* the trend lines of `render_temperature_chart` / `render_humidity_chart`
  (`scipy.stats.linregress` over `x_vals = list(range(len(df)))`) are the
  least-squares formulas over the rationals (`lrSlope`, `lrIntercept`);
* `round(random.uniform(a, b), 1)` is `pyRound1` (round to the nearest tenth,
  ties to even, as Python's `round` does) applied to a sample known only to
  lie in `[a, b]`, and `datetime.now().strftime("%Y-%m-%d %H:%M:%S")` is
  `formatTimestamp` on a broken-down clock value.
-/

/-- A sensor reading: the dictionary
`{"temperature": ..., "humidity": ..., "timestamp": ...}` built in
`reactive_calc_combined`.  Python floats are modelled as rationals and the
timestamp string as its list of characters. -/
structure Reading where
  temperature : ℚ
  humidity : ℚ
  timestamp : List Char
deriving DecidableEq, Repr

/-- `DEQUE_SIZE: int = 5` — number of recent readings kept in memory. -/
def DEQUE_SIZE : Nat := 5

/-- `UPDATE_INTERVAL_SECS: int = 10` — seconds between live data updates. -/
def UPDATE_INTERVAL_SECS : Nat := 10

/-- Python `deque(maxlen=n).append(r)`: insert at the tail; if the length
exceeds `n`, discard elements from the head until the length is `n`
(for a deque already respecting its bound this discards at most one). -/
def dequeAppend (n : Nat) (l : List Reading) (r : Reading) : List Reading :=
  if n < (l ++ [r]).length then (l ++ [r]).drop ((l ++ [r]).length - n) else l ++ [r]

/-- Performing a sequence of appends into an initially empty
`deque(maxlen=n)`, oldest first. -/
def rollThrough (n : Nat) (xs : List Reading) : List Reading :=
  xs.foldl (dequeAppend n) []

/-- The triple returned by `reactive_calc_combined`:
`(deque_snapshot, df, latest_dictionary_entry)`.  The first component is the
live deque object itself (it is *not* stored here: reading it consults the
current engine state, see `readBufferView`); `df = pd.DataFrame(deque_snapshot)`
copies the rows at construction time, so it is stored by value; `latest` is
the dict that was just appended. -/
structure Snapshot where
  df : List Reading
  latest : Reading
deriving DecidableEq, Repr

/-- Process-wide state: the contents of the deque inside
`reactive_value_wrapper`, plus the memoization cell of `@reactive.calc()`
(`none` when the calc has been invalidated and will recompute on next read). -/
structure EngineState where
  buf : List Reading
  cache : Option Snapshot
deriving DecidableEq, Repr

/-- `reactive_value_wrapper = reactive.value(deque(maxlen=DEQUE_SIZE))`:
the deque starts empty and no calc result is cached yet. -/
def initState : EngineState := ⟨[], none⟩

/-- A consumer invoking `reactive_calc_combined()`.  With a valid cache the
framework returns the memoized triple without running the body; otherwise the
body runs: a fresh reading `r` (from `random.uniform` / `datetime.now`) is
appended to the deque, `df` is built from the deque's current rows and the
triple is cached.  `r` parameterizes the entropy consumed on a miss. -/
def refreshAndGet (r : Reading) (st : EngineState) : Snapshot × EngineState :=
  match st.cache with
  | some s => (s, st)
  | none =>
      let buf' := dequeAppend DEQUE_SIZE st.buf r
      let snap : Snapshot := ⟨buf', r⟩
      (snap, ⟨buf', some snap⟩)

/-- The scheduler tick: `reactive.invalidate_later(UPDATE_INTERVAL_SECS)`
firing invalidates the calc's cached result; the deque is untouched. -/
def tick (st : EngineState) : EngineState := ⟨st.buf, none⟩

/-- Reading the `df` component of a previously obtained triple while the
engine is now in state `st`: `pd.DataFrame` copied the rows, so the value is
independent of the current state. -/
def readTableView (st : EngineState) (s : Snapshot) : List Reading := s.df

/-- Reading the `deque_snapshot` component of a previously obtained triple
while the engine is now in state `st`: it is the live deque object, so its
contents are the *current* buffer. -/
def readBufferView (st : EngineState) (s : Snapshot) : List Reading := st.buf

/-- The events that change the engine state over time. -/
inductive Event where
  | tick : Event
  | refresh : Reading → Event
deriving DecidableEq, Repr

def applyEvent (st : EngineState) (e : Event) : EngineState :=
  match e with
  | .tick => tick st
  | .refresh r => (refreshAndGet r st).2

def applyEvents (st : EngineState) (es : List Event) : EngineState :=
  es.foldl applyEvent st

/-- States the dashboard process can actually be in. -/
inductive Reachable : EngineState → Prop where
  | init : Reachable initState
  | step {st : EngineState} (e : Event) : Reachable st → Reachable (applyEvent st e)

/-- Invariant: whenever a calc result is cached, its `df` holds exactly the
current buffer rows and its `latest` is the buffer's tail. -/
def cacheConsistent (st : EngineState) : Prop :=
  ∀ s, st.cache = some s →
    s.df = st.buf ∧ st.buf ≠ [] ∧ st.buf.getLast? = some s.latest

/-- Python `deque(maxlen=m)`: a negative `maxlen` raises `ValueError`
(modelled as `none`); any other value — including `0` — is accepted and the
deque starts empty.  With `maxlen=0` the deque silently retains nothing. -/
def dequeNew (maxlen : Int) : Option (List Reading) :=
  if maxlen < 0 then none else some []

/-- Module-level construction in `app.py`:
`reactive_value_wrapper = reactive.value(deque(maxlen=DEQUE_SIZE))`.
The script performs no validation of its own on either constant: the deque
constructor is the only check that can fire, and the update interval is a
bare constant later handed to `reactive.invalidate_later` unexamined. -/
def dashboardConstruct (dequeSize intervalSecs : Int) : Option EngineState :=
  match dequeNew dequeSize with
  | none => none
  | some b => some ⟨b, none⟩

/-- Like `dequeAppend` but with the capacity given as a Python int, for the
construction scenarios (`deque.append` never rejects; capacity `0` keeps
nothing). -/
def dequeAppendZ (maxlen : Int) (l : List Reading) (r : Reading) : List Reading :=
  dequeAppend maxlen.toNat l r

def sampleReading1 : Reading := ⟨-27, 80, ['t', '1']⟩

def sampleReading2 : Reading := ⟨-26, 82, ['t', '2']⟩

def sampleReading3 : Reading := ⟨-28, 75, ['t', '3']⟩

def sampleReading4 : Reading := ⟨-25, 90, ['t', '4']⟩

/-- Sum over the first `n` naturals of a rational-valued function. -/
def sumR (n : Nat) (f : Nat → ℚ) : ℚ := (Finset.range n).sum f

/-- Sum of the x-values `x_vals = list(range(n))`. -/
def sX (n : Nat) : ℚ := sumR n (fun i => (i : ℚ))

/-- Sum of the squared x-values. -/
def sXX (n : Nat) : ℚ := sumR n (fun i => (i : ℚ) ^ 2)

/-- Sum of the y-series (a data column of the frame). -/
def sY (ys : List ℚ) : ℚ := sumR ys.length (fun i => ys.getD i 0)

/-- Sum of the products `x_i * y_i`. -/
def sXY (ys : List ℚ) : ℚ := sumR ys.length (fun i => (i : ℚ) * ys.getD i 0)

/-- `scipy.stats.linregress(x_vals, ys)` slope for `x_vals = 0..n-1`:
the least-squares slope `(n·Σxy − Σx·Σy) / (n·Σx² − (Σx)²)`. -/
def lrSlope (ys : List ℚ) : ℚ :=
  (ys.length * sXY ys - sX ys.length * sY ys) /
    (ys.length * sXX ys.length - sX ys.length ^ 2)

/-- `scipy.stats.linregress` intercept: `ȳ − slope·x̄`. -/
def lrIntercept (ys : List ℚ) : ℚ :=
  (sY ys - lrSlope ys * sX ys.length) / ys.length

/-- The trend-trace logic shared by `render_temperature_chart` and
`render_humidity_chart`: only `if len(df) >= 2` is a regression attempted
(`none` = no trend trace added to the figure). -/
def renderTrendLine (ys : List ℚ) : Option (ℚ × ℚ) :=
  if 2 ≤ ys.length then some (lrSlope ys, lrIntercept ys) else none

/-- `render_temperature_chart`'s trend over the frame's temperature column. -/
def renderTemperatureTrend (df : List Reading) : Option (ℚ × ℚ) :=
  renderTrendLine (df.map Reading.temperature)

/-- `render_humidity_chart`'s trend over the frame's humidity column. -/
def renderHumidityTrend (df : List Reading) : Option (ℚ × ℚ) :=
  renderTrendLine (df.map Reading.humidity)

/-- Sum of squared errors of the affine fit `x ↦ a·x + c` on the points
`(i, ys[i])` — the quantity ordinary least squares minimizes. -/
def SSE (ys : List ℚ) (a c : ℚ) : ℚ :=
  sumR ys.length (fun i => (ys.getD i 0 - (a * i + c)) ^ 2)

/-- Round a rational to the nearest integer, ties to even — the behavior of
Python's built-in `round` on an exactly-representable value. -/
def roundHalfEven (q : ℚ) : ℤ :=
  if q - ⌊q⌋ = 1 / 2 then (if 2 ∣ ⌊q⌋ then ⌊q⌋ else ⌊q⌋ + 1) else round q

/-- Python `round(x, 1)`: round to the nearest multiple of `1/10`, ties to
even. -/
def pyRound1 (q : ℚ) : ℚ := (roundHalfEven (10 * q) : ℚ) / 10

/-- The decimal digit character for `d` (meaningful for `d < 10`). -/
def digitChar (d : Nat) : Char := Char.ofNat (48 + d)

/-- `strftime("%Y")`: the year zero-padded to four digits (faithful for every
`datetime` year, which Python bounds by 9999). -/
def pad4 (n : Nat) : List Char :=
  [digitChar (n / 1000 % 10), digitChar (n / 100 % 10),
    digitChar (n / 10 % 10), digitChar (n % 10)]

/-- `strftime("%m")`, `"%d"`, `"%H"`, `"%M"`, `"%S"`: two-digit zero-padded
fields (faithful for the in-range values `datetime.now()` produces). -/
def pad2 (n : Nat) : List Char := [digitChar (n / 10 % 10), digitChar (n % 10)]

/-- A broken-down wall-clock instant as `datetime.now()` exposes it, at
second precision. -/
structure ClockTime where
  year : Nat
  month : Nat
  day : Nat
  hour : Nat
  minute : Nat
  second : Nat
deriving DecidableEq, Repr

/-- `datetime.now().strftime("%Y-%m-%d %H:%M:%S")`. -/
def formatTimestamp (t : ClockTime) : List Char :=
  pad4 t.year ++ ['-'] ++ pad2 t.month ++ ['-'] ++ pad2 t.day ++ [' '] ++
    pad2 t.hour ++ [':'] ++ pad2 t.minute ++ [':'] ++ pad2 t.second

/-- Lines 53–61 of `app.py`: build the new dictionary entry from the two
uniform samples and the current wall-clock time. -/
def mkReading (ut uh : ℚ) (t : ClockTime) : Reading :=
  { temperature := pyRound1 ut
    humidity := pyRound1 uh
    timestamp := formatTimestamp t }

/-- Does a character list have the shape `YYYY-MM-DD HH:MM:SS` (19 characters,
digits in the field positions, the right separators)? -/
def matchesTsPattern (s : List Char) : Bool :=
  match s with
  | [y1, y2, y3, y4, sep1, m1, m2, sep2, d1, d2, sp, h1, h2, c1, n1, n2, c2, s1, s2] =>
      y1.isDigit && y2.isDigit && y3.isDigit && y4.isDigit &&
      (sep1 == '-') && m1.isDigit && m2.isDigit &&
      (sep2 == '-') && d1.isDigit && d2.isDigit &&
      (sp == ' ') && h1.isDigit && h2.isDigit &&
      (c1 == ':') && n1.isDigit && n2.isDigit &&
      (c2 == ':') && s1.isDigit && s2.isDigit
  | _ => false

lemma dequeAppend_eq_drop (n : Nat) (l : List Reading) (r : Reading) :
    dequeAppend n l r = (l ++ [r]).drop ((l.length + 1) - n) := by
  unfold dequeAppend
  simp only [List.length_append, List.length_singleton]
  split
  · rfl
  · rename_i h
    have h0 : l.length + 1 - n = 0 := by omega
    rw [h0, List.drop_zero]

lemma rollThrough_append (n : Nat) (xs : List Reading) (r : Reading) :
    rollThrough n (xs ++ [r]) = dequeAppend n (rollThrough n xs) r := by
  unfold rollThrough
  simp [List.foldl_append]

/-- The rolling buffer after any sequence of appends holds exactly the
suffix of the appended readings that fits in the capacity. -/
lemma rollThrough_eq_drop (n : Nat) (xs : List Reading) :
    rollThrough n xs = xs.drop (xs.length - n) := by
  induction xs using List.reverseRecOn with
  | nil => simp [rollThrough]
  | append_singleton xs r ih =>
      rw [rollThrough_append, ih, dequeAppend_eq_drop]
      rw [List.drop_append_eq_append_drop, List.drop_append_eq_append_drop,
        List.drop_drop]
      simp only [List.length_drop, List.length_append, List.length_singleton]
      congr 1
      · congr 1
        omega
      · congr 1
        omega

lemma rollThrough_length (n : Nat) (xs : List Reading) :
    (rollThrough n xs).length = min xs.length n := by
  rw [rollThrough_eq_drop]
  simp
  omega

lemma dequeAppend_eq_concat (n : Nat) (hn : 1 ≤ n) (l : List Reading) (r : Reading) :
    dequeAppend n l r = l.drop (l.length + 1 - n) ++ [r] := by
  rw [dequeAppend_eq_drop, List.drop_append_eq_append_drop]
  have h : l.length + 1 - n - l.length = 0 := by omega
  rw [h, List.drop_zero]

lemma dequeAppend_getLast? (n : Nat) (hn : 1 ≤ n) (l : List Reading) (r : Reading) :
    (dequeAppend n l r).getLast? = some r := by
  rw [dequeAppend_eq_concat n hn]
  exact List.getLast?_concat _

lemma dequeAppend_ne_nil (n : Nat) (hn : 1 ≤ n) (l : List Reading) (r : Reading) :
    dequeAppend n l r ≠ [] := by
  rw [dequeAppend_eq_concat n hn]
  simp

lemma cacheConsistent_init : cacheConsistent initState := by
  intro s hs
  simp [initState] at hs

lemma cacheConsistent_step (st : EngineState) (e : Event)
    (ih : cacheConsistent st) : cacheConsistent (applyEvent st e) := by
  cases e with
  | tick =>
      intro s hs
      simp [applyEvent, tick] at hs
  | refresh r =>
      intro s hs
      cases hc : st.cache with
      | some s0 =>
          have hst : applyEvent st (Event.refresh r) = st := by
            simp [applyEvent, refreshAndGet, hc]
          rw [hst] at hs ⊢
          exact ih s hs
      | none =>
          have hst : applyEvent st (Event.refresh r) =
              ⟨dequeAppend DEQUE_SIZE st.buf r,
                some ⟨dequeAppend DEQUE_SIZE st.buf r, r⟩⟩ := by
            simp [applyEvent, refreshAndGet, hc]
          rw [hst] at hs ⊢
          simp only [Option.some_inj] at hs
          subst hs
          exact ⟨rfl, dequeAppend_ne_nil DEQUE_SIZE (by norm_num [DEQUE_SIZE]) _ _,
            dequeAppend_getLast? DEQUE_SIZE (by norm_num [DEQUE_SIZE]) _ _⟩

lemma reachable_cacheConsistent {st : EngineState} (h : Reachable st) :
    cacheConsistent st := by
  induction h with
  | init => exact cacheConsistent_init
  | step e _ ih => exact cacheConsistent_step _ e ih

/-- **C1.** For every capacity `N ≥ 1` and every sequence of `N + k` appends
into the initially empty rolling buffer of capacity `N`, the resulting
snapshot has length `min (N + k) N` and equals exactly the last `N` appended
readings in append (chronological) order: the oldest entries are the ones
evicted. -/
theorem rolling_buffer_keeps_last_N (N k : Nat) (hN : 1 ≤ N)
    (xs : List Reading) (hlen : xs.length = N + k) :
    (rollThrough N xs).length = min (N + k) N ∧
    rollThrough N xs = xs.drop k := by
  constructor
  · rw [rollThrough_length, hlen]
  · rw [rollThrough_eq_drop, hlen]
    congr 1
    omega

/-- Witness for C1: capacity 2, three appends; the snapshot is the last two
readings in order and has length `min 3 2`. -/
theorem rolling_buffer_keeps_last_N_witness :
    (rollThrough 2 [sampleReading1, sampleReading2, sampleReading3]).length = min (2 + 1) 2 ∧
    rollThrough 2 [sampleReading1, sampleReading2, sampleReading3] =
      [sampleReading1, sampleReading2, sampleReading3].drop 1 :=
  rolling_buffer_keeps_last_N 2 1 (by decide) _ (by decide)

/-- **C2.** Invoking `reactive_calc_combined` twice with no intervening
scheduler tick returns the identical cached snapshot and leaves the engine
state — in particular the deque — unchanged: no new reading is appended by
the second call, whatever entropy `r2` would have offered. -/
theorem refresh_twice_same_snapshot (st : EngineState) (r1 r2 : Reading) :
    (refreshAndGet r2 (refreshAndGet r1 st).2).1 = (refreshAndGet r1 st).1 ∧
    (refreshAndGet r2 (refreshAndGet r1 st).2).2 = (refreshAndGet r1 st).2 := by
  cases hc : st.cache with
  | some s => simp [refreshAndGet, hc]
  | none => simp [refreshAndGet, hc]

/-- **C3.** After exactly one refresh cycle on the initially empty buffer,
the latest reading of the snapshot equals the single buffer entry, equals the
reading appended during that cycle, and the tabular projection has exactly
one row. -/
theorem first_cycle_snapshot (r : Reading) :
    (refreshAndGet r initState).1.latest = r ∧
    (refreshAndGet r initState).2.buf = [r] ∧
    (refreshAndGet r initState).1.df = [r] ∧
    (refreshAndGet r initState).1.df.length = 1 := by
  simp [refreshAndGet, initState, dequeAppend, DEQUE_SIZE]

/-- **C5.** Every snapshot a consumer can obtain has its three views derived
from one buffer state: the tabular rows equal the buffer contents in order,
the latest reading is the buffer's tail, and within the tick the live deque
view and the table view agree — no mix of ticks is observable. -/
theorem snapshot_views_same_state (st : EngineState) (hst : Reachable st) (r : Reading) :
    (refreshAndGet r st).1.df = (refreshAndGet r st).2.buf ∧
    (refreshAndGet r st).2.buf.getLast? = some (refreshAndGet r st).1.latest ∧
    readTableView (refreshAndGet r st).2 (refreshAndGet r st).1 =
      readBufferView (refreshAndGet r st).2 (refreshAndGet r st).1 := by
  cases hc : st.cache with
  | some s =>
      have h := reachable_cacheConsistent hst s hc
      simp [refreshAndGet, hc, readTableView, readBufferView, h.1, h.2.2]
  | none =>
      refine ⟨?_, ?_, ?_⟩
      · simp [refreshAndGet, hc]
      · simp only [refreshAndGet, hc]
        exact dequeAppend_getLast? DEQUE_SIZE (by norm_num [DEQUE_SIZE]) _ _
      · simp [refreshAndGet, hc, readTableView, readBufferView]

/-- Witness for C5 at the initial state with a concrete reading. -/
theorem snapshot_views_same_state_witness :
    (refreshAndGet sampleReading1 initState).1.df =
      (refreshAndGet sampleReading1 initState).2.buf ∧
    (refreshAndGet sampleReading1 initState).2.buf.getLast? =
      some (refreshAndGet sampleReading1 initState).1.latest ∧
    readTableView (refreshAndGet sampleReading1 initState).2
        (refreshAndGet sampleReading1 initState).1 =
      readBufferView (refreshAndGet sampleReading1 initState).2
        (refreshAndGet sampleReading1 initState).1 :=
  snapshot_views_same_state initState Reachable.init sampleReading1

/-- **C4 (counterexample).** The deque component of a snapshot *is* a live
mutable alias: the snapshot taken on the first refresh reads `[r1]` at that
moment, but after a tick and a further append the very same snapshot's deque
view reads `[r1, r2]` — the later mutation changed the previously taken
snapshot's contents, contradicting the claim. -/
theorem buffer_view_mutates_counterexample :
    readBufferView (refreshAndGet sampleReading1 initState).2
        (refreshAndGet sampleReading1 initState).1 = [sampleReading1] ∧
    readBufferView
        (applyEvents (refreshAndGet sampleReading1 initState).2
          [Event.tick, Event.refresh sampleReading2])
        (refreshAndGet sampleReading1 initState).1 =
      [sampleReading1, sampleReading2] := by
  decide

/-- **C4 (amended).** Only the tabular projection is protected from later
mutation: whatever events follow a refresh, reading the snapshot's table
still yields the rows copied at computation time, while reading the
snapshot's deque component always yields the *current* live buffer. -/
theorem table_protected_buffer_live (st : EngineState) (hc : st.cache = none)
    (r : Reading) (es : List Event) :
    readTableView (applyEvents (refreshAndGet r st).2 es) (refreshAndGet r st).1 =
      dequeAppend DEQUE_SIZE st.buf r ∧
    readBufferView (applyEvents (refreshAndGet r st).2 es) (refreshAndGet r st).1 =
      (applyEvents (refreshAndGet r st).2 es).buf := by
  simp [refreshAndGet, hc, readTableView, readBufferView]

/-- Witness for the amended C4: a concrete refresh followed by a tick and a
second append. -/
theorem table_protected_buffer_live_witness :
    readTableView
        (applyEvents (refreshAndGet sampleReading3 initState).2
          [Event.tick, Event.refresh sampleReading4])
        (refreshAndGet sampleReading3 initState).1 =
      dequeAppend DEQUE_SIZE initState.buf sampleReading3 ∧
    readBufferView
        (applyEvents (refreshAndGet sampleReading3 initState).2
          [Event.tick, Event.refresh sampleReading4])
        (refreshAndGet sampleReading3 initState).1 =
      (applyEvents (refreshAndGet sampleReading3 initState).2
        [Event.tick, Event.refresh sampleReading4]).buf :=
  table_protected_buffer_live initState rfl sampleReading3
    [Event.tick, Event.refresh sampleReading4]

/-- **C10.** The `pd.DataFrame` held by a snapshot is a copy taken at
computation time: after a tick and a further append, the earlier snapshot's
table still holds exactly the rows (and hence the row count) of the buffer
as it was when the table was built, even though the deque view of the same
snapshot now shows the extended live buffer. -/
theorem dataframe_copy_stable (st : EngineState) (hc : st.cache = none)
    (r r2 : Reading) :
    readTableView (refreshAndGet r2 (tick (refreshAndGet r st).2)).2
        (refreshAndGet r st).1 = dequeAppend DEQUE_SIZE st.buf r ∧
    (readTableView (refreshAndGet r2 (tick (refreshAndGet r st).2)).2
        (refreshAndGet r st).1).length = (dequeAppend DEQUE_SIZE st.buf r).length ∧
    readBufferView (refreshAndGet r2 (tick (refreshAndGet r st).2)).2
        (refreshAndGet r st).1 =
      dequeAppend DEQUE_SIZE (dequeAppend DEQUE_SIZE st.buf r) r2 := by
  simp [refreshAndGet, hc, tick, readTableView, readBufferView]

/-- Witness for C10 with concrete readings from the empty initial state. -/
theorem dataframe_copy_stable_witness :
    readTableView (refreshAndGet sampleReading2 (tick (refreshAndGet sampleReading1 initState).2)).2
        (refreshAndGet sampleReading1 initState).1 =
      dequeAppend DEQUE_SIZE initState.buf sampleReading1 ∧
    (readTableView (refreshAndGet sampleReading2 (tick (refreshAndGet sampleReading1 initState).2)).2
        (refreshAndGet sampleReading1 initState).1).length =
      (dequeAppend DEQUE_SIZE initState.buf sampleReading1).length ∧
    readBufferView (refreshAndGet sampleReading2 (tick (refreshAndGet sampleReading1 initState).2)).2
        (refreshAndGet sampleReading1 initState).1 =
      dequeAppend DEQUE_SIZE (dequeAppend DEQUE_SIZE initState.buf sampleReading1) sampleReading2 :=
  dataframe_copy_stable initState rfl sampleReading1 sampleReading2

/-- **C8 (counterexample).** A request arriving while the buffer is still
empty (before any tick) does not produce a "no data yet" value: the calc body
runs, appends a fresh reading and returns it as `latest` with a one-row
table.  The interface has no empty-data answer at all. -/
theorem empty_buffer_request_counterexample :
    initState.buf = [] ∧
    (refreshAndGet sampleReading1 initState).1.latest = sampleReading1 ∧
    (refreshAndGet sampleReading1 initState).1.df = [sampleReading1] := by
  decide

/-- **C8 (amended).** A consumer can never observe an empty buffer: every
request triggers the refresh first when nothing is cached, so the snapshot it
receives always carries at least one genuine reading, whose tail is `latest`.
-/
theorem request_always_yields_data (st : EngineState) (hst : Reachable st)
    (r : Reading) :
    (refreshAndGet r st).1.df ≠ [] ∧
    (refreshAndGet r st).2.buf ≠ [] ∧
    (refreshAndGet r st).2.buf.getLast? = some (refreshAndGet r st).1.latest := by
  cases hc : st.cache with
  | some s =>
      have h := reachable_cacheConsistent hst s hc
      simp only [refreshAndGet, hc]
      exact ⟨h.1 ▸ h.2.1, h.2.1, h.2.2⟩
  | none =>
      simp only [refreshAndGet, hc]
      exact ⟨dequeAppend_ne_nil DEQUE_SIZE (by norm_num [DEQUE_SIZE]) _ _,
        dequeAppend_ne_nil DEQUE_SIZE (by norm_num [DEQUE_SIZE]) _ _,
        dequeAppend_getLast? DEQUE_SIZE (by norm_num [DEQUE_SIZE]) _ _⟩

/-- Witness for the amended C8 at the initial (empty-buffer) state. -/
theorem request_always_yields_data_witness :
    (refreshAndGet sampleReading4 initState).1.df ≠ [] ∧
    (refreshAndGet sampleReading4 initState).2.buf ≠ [] ∧
    (refreshAndGet sampleReading4 initState).2.buf.getLast? =
      some (refreshAndGet sampleReading4 initState).1.latest :=
  request_always_yields_data initState Reachable.init sampleReading4

/-- **C9 (counterexample).** Construction does not fail fast on non-positive
configuration: capacity `0` together with interval `-5` is accepted (an
engine state is produced), and the capacity-`0` deque then silently retains
nothing on append — the opposite of the claimed rejection. -/
theorem nonpositive_config_accepted_counterexample :
    dashboardConstruct 0 (-5) = some ⟨[], none⟩ ∧
    dequeAppendZ 0 [] sampleReading1 = [] := by
  decide

/-- **C9 (amended).** The script performs no construction-time validation of
its own: every non-negative capacity — including `0` — is accepted with any
interval whatsoever, and the only rejection that can occur is Python's own
`deque` raising `ValueError` on a negative `maxlen`. -/
theorem construction_no_fail_fast (c i : Int) :
    (c < 0 → dashboardConstruct c i = none) ∧
    (0 ≤ c → dashboardConstruct c i = some ⟨[], none⟩) := by
  constructor
  · intro h
    simp [dashboardConstruct, dequeNew, h]
  · intro h
    simp [dashboardConstruct, dequeNew, not_lt.mpr h]

/-- Witness for the amended C9: a negative capacity is rejected by the deque
constructor while capacity `0` with a negative interval is accepted. -/
theorem construction_no_fail_fast_witness :
    dashboardConstruct (-1) 7 = none ∧
    dashboardConstruct 0 (-3) = some ⟨[], none⟩ :=
  ⟨(construction_no_fail_fast (-1) 7).1 (by decide),
    (construction_no_fail_fast 0 (-3)).2 (by decide)⟩

lemma le_roundHalfEven (q : ℚ) : ⌊q⌋ ≤ roundHalfEven q := by
  unfold roundHalfEven
  split
  · split
    · exact le_refl _
    · omega
  · rw [round_eq]
    exact Int.floor_le_floor (by linarith)

lemma roundHalfEven_le_ceil (q : ℚ) : roundHalfEven q ≤ ⌈q⌉ := by
  unfold roundHalfEven
  split
  · rename_i h
    split
    · exact Int.floor_le_ceil q
    · have hlt : (⌊q⌋ : ℚ) < q := by linarith
      have hc : ⌊q⌋ < ⌈q⌉ := by
        have h1 := Int.le_ceil q
        exact_mod_cast lt_of_lt_of_le hlt h1
      omega
  · rw [round_eq]
    have h1 : ⌊q + 1 / 2⌋ < ⌈q⌉ + 1 := by
      rw [Int.floor_lt]
      push_cast
      have := Int.le_ceil q
      linarith
    omega

lemma pyRound1_bounds (a b : ℤ) (q : ℚ) (h1 : (a : ℚ) / 10 ≤ q)
    (h2 : q ≤ (b : ℚ) / 10) :
    (a : ℚ) / 10 ≤ pyRound1 q ∧ pyRound1 q ≤ (b : ℚ) / 10 := by
  have ha : a ≤ ⌊10 * q⌋ := by
    rw [Int.le_floor]
    linarith
  have hb : ⌈10 * q⌉ ≤ b := by
    rw [Int.ceil_le]
    linarith
  have hlo := le_roundHalfEven (10 * q)
  have hhi := roundHalfEven_le_ceil (10 * q)
  constructor
  · unfold pyRound1
    have h : (a : ℚ) ≤ (roundHalfEven (10 * q) : ℚ) := by
      exact_mod_cast le_trans ha hlo
    linarith
  · unfold pyRound1
    have h : ((roundHalfEven (10 * q) : ℚ)) ≤ (b : ℚ) := by
      exact_mod_cast le_trans hhi hb
    linarith

lemma digitChar_isDigit (d : Nat) (h : d < 10) : (digitChar d).isDigit = true := by
  interval_cases d <;> decide

lemma digitChar_mod_isDigit (m : Nat) : (digitChar (m % 10)).isDigit = true :=
  digitChar_isDigit _ (Nat.mod_lt _ (by norm_num))

lemma matchesTsPattern_formatTimestamp (t : ClockTime) :
    matchesTsPattern (formatTimestamp t) = true := by
  simp only [formatTimestamp, pad4, pad2, List.cons_append, List.nil_append]
  simp [matchesTsPattern, digitChar_mod_isDigit]

/-- **C7.** Every reading the default source produces has its temperature in
`[-30, -25]` °C rounded to one decimal, its humidity in `[70, 95] %` rounded
to one decimal, and a timestamp formatted `YYYY-MM-DD HH:MM:SS` — given only
the `random.uniform` contract that each sample lies in the requested
interval. -/
theorem default_reading_well_formed (ut uh : ℚ) (t : ClockTime)
    (hut1 : -30 ≤ ut) (hut2 : ut ≤ -25) (huh1 : 70 ≤ uh) (huh2 : uh ≤ 95) :
    (-30 ≤ (mkReading ut uh t).temperature ∧ (mkReading ut uh t).temperature ≤ -25) ∧
    (∃ z : ℤ, (mkReading ut uh t).temperature = (z : ℚ) / 10) ∧
    (70 ≤ (mkReading ut uh t).humidity ∧ (mkReading ut uh t).humidity ≤ 95) ∧
    (∃ z : ℤ, (mkReading ut uh t).humidity = (z : ℚ) / 10) ∧
    matchesTsPattern (mkReading ut uh t).timestamp = true := by
  have ht := pyRound1_bounds (-300) (-250) ut (by push_cast; linarith)
    (by push_cast; linarith)
  have hh := pyRound1_bounds 700 950 uh (by push_cast; linarith)
    (by push_cast; linarith)
  have ht1 : (-30 : ℚ) ≤ pyRound1 ut := by
    have := ht.1
    push_cast at this
    linarith
  have ht2 : pyRound1 ut ≤ (-25 : ℚ) := by
    have := ht.2
    push_cast at this
    linarith
  have hh1 : (70 : ℚ) ≤ pyRound1 uh := by
    have := hh.1
    push_cast at this
    linarith
  have hh2 : pyRound1 uh ≤ (95 : ℚ) := by
    have := hh.2
    push_cast at this
    linarith
  exact ⟨⟨ht1, ht2⟩, ⟨roundHalfEven (10 * ut), rfl⟩, ⟨hh1, hh2⟩,
    ⟨roundHalfEven (10 * uh), rfl⟩, matchesTsPattern_formatTimestamp t⟩

/-- Witness for C7 at concrete samples and a concrete clock instant. -/
theorem default_reading_well_formed_witness :
    (-30 ≤ (mkReading (-273/10) (801/10) ⟨2024, 1, 1, 0, 0, 0⟩).temperature ∧
      (mkReading (-273/10) (801/10) ⟨2024, 1, 1, 0, 0, 0⟩).temperature ≤ -25) ∧
    (∃ z : ℤ, (mkReading (-273/10) (801/10) ⟨2024, 1, 1, 0, 0, 0⟩).temperature = (z : ℚ) / 10) ∧
    (70 ≤ (mkReading (-273/10) (801/10) ⟨2024, 1, 1, 0, 0, 0⟩).humidity ∧
      (mkReading (-273/10) (801/10) ⟨2024, 1, 1, 0, 0, 0⟩).humidity ≤ 95) ∧
    (∃ z : ℤ, (mkReading (-273/10) (801/10) ⟨2024, 1, 1, 0, 0, 0⟩).humidity = (z : ℚ) / 10) ∧
    matchesTsPattern (mkReading (-273/10) (801/10) ⟨2024, 1, 1, 0, 0, 0⟩).timestamp = true :=
  default_reading_well_formed (-273/10) (801/10) ⟨2024, 1, 1, 0, 0, 0⟩
    (by norm_num) (by norm_num) (by norm_num) (by norm_num)

lemma sX_closed (n : Nat) : sX n = (n : ℚ) * ((n : ℚ) - 1) / 2 := by
  induction n with
  | zero => simp [sX, sumR]
  | succ m ih =>
      unfold sX sumR at ih ⊢
      rw [Finset.sum_range_succ, ih]
      push_cast
      ring

lemma sXX_closed (n : Nat) :
    sXX n = (n : ℚ) * ((n : ℚ) - 1) * (2 * (n : ℚ) - 1) / 6 := by
  induction n with
  | zero => simp [sXX, sumR]
  | succ m ih =>
      unfold sXX sumR at ih ⊢
      rw [Finset.sum_range_succ, ih]
      push_cast
      ring

lemma lr_denom_closed (n : Nat) :
    (n : ℚ) * sXX n - sX n ^ 2 =
      (n : ℚ) ^ 2 * ((n : ℚ) - 1) * ((n : ℚ) + 1) / 12 := by
  rw [sX_closed, sXX_closed]
  ring

lemma lr_denom_pos (n : Nat) (h : 2 ≤ n) :
    0 < (n : ℚ) * sXX n - sX n ^ 2 := by
  rw [lr_denom_closed]
  have hn : (2 : ℚ) ≤ (n : ℚ) := by exact_mod_cast h
  have h2 : (0 : ℚ) < (n : ℚ) := by linarith
  have ha : (0 : ℚ) < (n : ℚ) ^ 2 := by positivity
  have hb : (0 : ℚ) < (n : ℚ) - 1 := by linarith
  have hc : (0 : ℚ) < (n : ℚ) + 1 := by linarith
  have hprod := mul_pos (mul_pos ha hb) hc
  linarith

lemma length_pos_of_two_le (n : Nat) (h : 2 ≤ n) : ((n : ℚ)) ≠ 0 := by
  have : (2 : ℚ) ≤ (n : ℚ) := by exact_mod_cast h
  linarith

lemma lrSlope_eq (ys : List ℚ) (h : 2 ≤ ys.length) :
    lrSlope ys * ((ys.length : ℚ) * sXX ys.length - sX ys.length ^ 2) =
      (ys.length : ℚ) * sXY ys - sX ys.length * sY ys := by
  unfold lrSlope
  rw [div_mul_cancel₀]
  exact ne_of_gt (lr_denom_pos _ h)

lemma lrIntercept_eq (ys : List ℚ) (h : 2 ≤ ys.length) :
    lrIntercept ys * (ys.length : ℚ) = sY ys - lrSlope ys * sX ys.length := by
  unfold lrIntercept
  rw [div_mul_cancel₀]
  exact length_pos_of_two_le _ h

lemma sum_residual (ys : List ℚ) (s b : ℚ) :
    sumR ys.length (fun i => ys.getD i 0 - (s * i + b)) =
      sY ys - s * sX ys.length - (ys.length : ℚ) * b := by
  simp only [sumR, sY, sX]
  rw [Finset.sum_sub_distrib, Finset.sum_add_distrib, ← Finset.mul_sum,
    Finset.sum_const, Finset.card_range, nsmul_eq_mul]
  ring

lemma sum_x_residual (ys : List ℚ) (s b : ℚ) :
    sumR ys.length (fun i => (i : ℚ) * (ys.getD i 0 - (s * i + b))) =
      sXY ys - s * sXX ys.length - b * sX ys.length := by
  simp only [sumR, sXY, sXX, sX]
  have hpt : ∀ i ∈ Finset.range ys.length,
      (i : ℚ) * (ys.getD i 0 - (s * i + b)) =
        (i : ℚ) * ys.getD i 0 - s * (i : ℚ) ^ 2 - b * (i : ℚ) := by
    intro i _
    ring
  rw [Finset.sum_congr rfl hpt, Finset.sum_sub_distrib, Finset.sum_sub_distrib,
    ← Finset.mul_sum, ← Finset.mul_sum]

lemma normal_equation_const (ys : List ℚ) (h : 2 ≤ ys.length) :
    sumR ys.length
      (fun i => ys.getD i 0 - (lrSlope ys * i + lrIntercept ys)) = 0 := by
  rw [sum_residual]
  have hb : (ys.length : ℚ) * lrIntercept ys =
      sY ys - lrSlope ys * sX ys.length := by
    rw [mul_comm]
    exact lrIntercept_eq ys h
  linarith

lemma normal_equation_x (ys : List ℚ) (h : 2 ≤ ys.length) :
    sumR ys.length
      (fun i => (i : ℚ) * (ys.getD i 0 - (lrSlope ys * i + lrIntercept ys))) = 0 := by
  rw [sum_x_residual]
  have hs := lrSlope_eq ys h
  have hb := lrIntercept_eq ys h
  have hn := length_pos_of_two_le ys.length h
  have key : (ys.length : ℚ) *
      (sXY ys - lrSlope ys * sXX ys.length - lrIntercept ys * sX ys.length) = 0 := by
    linear_combination (-1 : ℚ) * hs - sX ys.length * hb
  rcases mul_eq_zero.mp key with h0 | h0
  · exact absurd h0 hn
  · exact h0

lemma sse_decomposition (ys : List ℚ) (h : 2 ≤ ys.length) (a c : ℚ) :
    SSE ys a c = SSE ys (lrSlope ys) (lrIntercept ys) +
      sumR ys.length
        (fun i => ((lrSlope ys - a) * i + (lrIntercept ys - c)) ^ 2) := by
  have hpt : ∀ i ∈ Finset.range ys.length,
      (ys.getD i 0 - (a * i + c)) ^ 2 =
        (ys.getD i 0 - (lrSlope ys * i + lrIntercept ys)) ^ 2 +
          ((lrSlope ys - a) * i + (lrIntercept ys - c)) ^ 2 +
          (2 * (lrSlope ys - a) *
              ((i : ℚ) * (ys.getD i 0 - (lrSlope ys * i + lrIntercept ys))) +
            2 * (lrIntercept ys - c) *
              (ys.getD i 0 - (lrSlope ys * i + lrIntercept ys))) := by
    intro i _
    ring
  unfold SSE sumR
  rw [Finset.sum_congr rfl hpt, Finset.sum_add_distrib, Finset.sum_add_distrib,
    Finset.sum_add_distrib, ← Finset.mul_sum, ← Finset.mul_sum]
  have h1 := normal_equation_x ys h
  have h2 := normal_equation_const ys h
  unfold sumR at h1 h2
  rw [h1, h2]
  ring

lemma sse_minimal (ys : List ℚ) (h : 2 ≤ ys.length) (a c : ℚ) :
    SSE ys (lrSlope ys) (lrIntercept ys) ≤ SSE ys a c := by
  rw [sse_decomposition ys h a c]
  have hnn : 0 ≤ sumR ys.length
      (fun i => ((lrSlope ys - a) * i + (lrIntercept ys - c)) ^ 2) := by
    unfold sumR
    apply Finset.sum_nonneg
    intro i _
    positivity
  linarith

/-- **C6.** With fewer than two rows neither chart attempts a regression (no
trend trace); with at least two rows each chart's trend line carries the
slope and intercept of the ordinary-least-squares fit of that column's
values over the index x-values `0..n-1` — they minimize the sum of squared
errors over all affine fits. -/
theorem trend_line_guard_and_ols (df : List Reading) :
    (df.length < 2 →
      renderTemperatureTrend df = none ∧ renderHumidityTrend df = none) ∧
    (2 ≤ df.length →
      (renderTemperatureTrend df =
          some (lrSlope (df.map Reading.temperature),
            lrIntercept (df.map Reading.temperature)) ∧
        ∀ a c : ℚ,
          SSE (df.map Reading.temperature) (lrSlope (df.map Reading.temperature))
              (lrIntercept (df.map Reading.temperature)) ≤
            SSE (df.map Reading.temperature) a c) ∧
      (renderHumidityTrend df =
          some (lrSlope (df.map Reading.humidity),
            lrIntercept (df.map Reading.humidity)) ∧
        ∀ a c : ℚ,
          SSE (df.map Reading.humidity) (lrSlope (df.map Reading.humidity))
              (lrIntercept (df.map Reading.humidity)) ≤
            SSE (df.map Reading.humidity) a c)) := by
  constructor
  · intro h
    have h1 : ¬ 2 ≤ (df.map Reading.temperature).length := by
      rw [List.length_map]
      omega
    have h2 : ¬ 2 ≤ (df.map Reading.humidity).length := by
      rw [List.length_map]
      omega
    constructor
    · unfold renderTemperatureTrend renderTrendLine
      rw [if_neg h1]
    · unfold renderHumidityTrend renderTrendLine
      rw [if_neg h2]
  · intro h
    have h1 : 2 ≤ (df.map Reading.temperature).length := by
      rw [List.length_map]
      exact h
    have h2 : 2 ≤ (df.map Reading.humidity).length := by
      rw [List.length_map]
      exact h
    constructor
    · constructor
      · unfold renderTemperatureTrend renderTrendLine
        rw [if_pos h1]
      · exact sse_minimal _ h1
    · constructor
      · unfold renderHumidityTrend renderTrendLine
        rw [if_pos h2]
      · exact sse_minimal _ h2

/-- Witness for C6: two concrete readings; the guard passes and the computed
fit is no worse than the zero fit on both columns. -/
theorem trend_line_guard_and_ols_witness :
    renderTemperatureTrend [sampleReading1, sampleReading2] =
      some (lrSlope ([sampleReading1, sampleReading2].map Reading.temperature),
        lrIntercept ([sampleReading1, sampleReading2].map Reading.temperature)) ∧
    SSE ([sampleReading1, sampleReading2].map Reading.temperature)
        (lrSlope ([sampleReading1, sampleReading2].map Reading.temperature))
        (lrIntercept ([sampleReading1, sampleReading2].map Reading.temperature)) ≤
      SSE ([sampleReading1, sampleReading2].map Reading.temperature) 0 0 ∧
    renderHumidityTrend [sampleReading1, sampleReading2] =
      some (lrSlope ([sampleReading1, sampleReading2].map Reading.humidity),
        lrIntercept ([sampleReading1, sampleReading2].map Reading.humidity)) :=
  ⟨((trend_line_guard_and_ols [sampleReading1, sampleReading2]).2 (by decide)).1.1,
    ((trend_line_guard_and_ols [sampleReading1, sampleReading2]).2 (by decide)).1.2 0 0,
    ((trend_line_guard_and_ols [sampleReading1, sampleReading2]).2 (by decide)).2.1⟩
